import Mathlib

/-!
Verification of the SPARQL-to-ThingTalk converter (qald repository).

Shallow embedding of:
  - src/lib/converter.ts        (SPARQLToThingTalkConverter)
  - src/lib/utils/misc.ts       (similarity, closest, getSpans)
  - src/dist/lib/utils/wikidata.js (the request primitive with retry)

JavaScript strings are modelled as Lean Strings; the JS string operations
slice, startsWith and split are modelled by explicit functions over the
underlying character lists.  External collaborators (the schema catalogue,
the knowledge-base label lookup, the Levenshtein matcher, the tokenizer,
the stemmer, the stopword list, number parsing and HTTP) are modelled as
function-valued fields of explicit environment records, as the spec treats
them as boundary collaborators.  Fallible code returns Except.
-/

namespace Qald

/-! ## String helpers modelling the JavaScript string operations used by the source -/

/-- Model of the JS expression s.slice(n) on strings (drop the first n characters). -/
def strDrop (s : String) (n : Nat) : String := ⟨s.data.drop n⟩

/-- Model of the JS expression s.length. -/
def strLen (s : String) : Nat := s.data.length

/-- Model of the JS expression s.startsWith(p). -/
def strStartsWith (s p : String) : Bool := decide (s.data.take p.data.length = p.data)

/-- ENTITY constant of src/lib/utils/wikidata.ts (the entity URI namespace). -/
def wdEntityUri : String := "http://www.wikidata.org/entity/"

/-- PROPERTY constant of src/lib/utils/wikidata.ts (the direct-property URI namespace). -/
def wdPropertyUri : String := "http://www.wikidata.org/prop/direct/"

/-! ## src/lib/utils/misc.ts : getSpans -/

/-- Whitespace test for the JS regular expression class backslash-s
(space, tab, newline, carriage return, vertical tab, form feed). -/
def isWsChar (c : Char) : Bool :=
  c = ' ' ∨ c = '\t' ∨ c = '\n' ∨ c = '\r' ∨ c = '\x0b' ∨ c = '\x0c'

/-- Worker for splitting on runs of whitespace, as the JS call
s.split(on the regexp of one-or-more whitespace) does: a run of whitespace
is one separator, so interior runs never produce empty tokens, while
leading and trailing whitespace produce one leading or trailing empty
token.  The boolean records whether the previous character was part of a
separator run (so further whitespace is absorbed into the same run). -/
def splitWsGo : List Char → List Char → Bool → List (List Char)
  | [], acc, _ => [acc.reverse]
  | c :: rest, acc, inRun =>
    if isWsChar c then
      if inRun then splitWsGo rest [] true
      else acc.reverse :: splitWsGo rest [] true
    else splitWsGo rest (c :: acc) false

/-- Model of the JS call s.split on one-or-more whitespace. -/
def splitWs (s : List Char) : List (List Char) := splitWsGo s [] false

/-- misc.ts removeEndPunctuation: remove one trailing '.', '!' or '?'. -/
def removeEndPunctuationL (l : List Char) : List Char :=
  match l.getLast? with
  | some c => if c = '.' ∨ c = '!' ∨ c = '?' then l.dropLast else l
  | none => l

/-- misc.ts removeEndPunctuation, at the String level. -/
def removeEndPunctuation (v : String) : String := ⟨removeEndPunctuationL v.data⟩

/-- Model of the JS call tokens.join(the one-space string). -/
def joinSpace : List String → String
  | [] => ""
  | [t] => t
  | t :: rest => t ++ " " ++ joinSpace rest

/-- The token list getSpans works over: trailing punctuation stripped, then
whitespace-tokenized. -/
def tokensOf (s : String) : List String :=
  (splitWs (removeEndPunctuationL s.data)).map (fun l => (⟨l⟩ : String))

/-- Model of the JS call tokens.slice(index, index + len). -/
def sliceTokens (tokens : List String) (index len : Nat) : List String :=
  (tokens.drop index).take len

/-- misc.ts getSpans: for len = 1 .. n and index = 0 .. n - len, push the
joined slice of length len starting at index. -/
def getSpans (s : String) : List String :=
  let tokens := tokensOf s
  ((List.range tokens.length).map (fun l =>
    (List.range (tokens.length - l)).map (fun index =>
      joinSpace (sliceTokens tokens index (l + 1))))).flatten

/-! ## src/lib/utils/misc.ts : similarity and closest -/

/-- Environment for the text-normalization collaborators of misc.ts:
the en-stemmer stem function, the platform NFD normalizer used by
removeAccent, the platform lowercasing, and the stopword list of the
stopword package. -/
structure TextEnv where
  stem : String → String
  normalizeNFD : String → String
  toLower : String → String
  isStopword : String → Bool

/-- misc.ts removeAccent: NFD-normalize then strip combining marks
(the characters U+0300 to U+036F). -/
def removeAccent (env : TextEnv) (v : String) : String :=
  ⟨(env.normalizeNFD v).data.filter (fun c => !(0x300 ≤ c.toNat ∧ c.toNat ≤ 0x36f))⟩

/-- The local clean function of misc.ts similarity. -/
def cleanToken (env : TextEnv) (s : String) : String := env.stem (removeAccent env s)

/-- Model of the JS call s.split(single space character): split at every
space, keeping empty pieces. -/
def splitSpaceGo : List Char → List Char → List (List Char)
  | [], acc => [acc.reverse]
  | c :: rest, acc =>
    if c = ' ' then acc.reverse :: splitSpaceGo rest []
    else splitSpaceGo rest (c :: acc)

/-- String-level split at every single space. -/
def splitSpace (s : String) : List String :=
  (splitSpaceGo s.data []).map (fun l => (⟨l⟩ : String))

/-- The cleaned token list of one argument of misc.ts similarity:
lowercase, split on spaces, remove stopwords, stem each token. -/
def cleanedTokens (env : TextEnv) (s : String) : List String :=
  ((splitSpace (env.toLower s)).filter (fun t => !env.isStopword t)).map (cleanToken env)

/-- The two similarity modes of misc.ts. -/
inductive SimAlgorithm
  | jaccard
  | f1
deriving DecidableEq

/-- Model of the JS spread-of-Set deduplication, keeping first occurrences. -/
def jsDedupGo : List String → List String → List String
  | [], _ => []
  | a :: l, seen => if a ∈ seen then jsDedupGo l seen else a :: jsDedupGo l (a :: seen)

/-- Deduplicate keeping first occurrences. -/
def jsDedup (l : List String) : List String := jsDedupGo l []

/-- misc.ts similarity: word-level set similarity of the two cleaned token
lists, returning a rational in place of the JS floating-point number. -/
def similarity (env : TextEnv) (s1 s2 : String) (algorithm : SimAlgorithm := .f1) : ℚ :=
  let arr1 := cleanedTokens env s1
  let arr2 := cleanedTokens env s2
  if arr1 = [] ∨ arr2 = [] then 0
  else
    let intersect := arr1.filter (fun v => decide (v ∈ arr2))
    match algorithm with
    | .jaccard =>
      let union := jsDedup (arr1 ++ arr2)
      (intersect.length : ℚ) / (union.length : ℚ)
    | .f1 =>
      let precisionScore := (intersect.length : ℚ) / (arr1.length : ℚ)
      let recallScore := (intersect.length : ℚ) / (arr2.length : ℚ)
      if precisionScore = 0 ∨ recallScore = 0 then 0
      else 2 * precisionScore * recallScore / (precisionScore + recallScore)

/-! ## src/lib/converter.ts : data model -/

/-- ThingTalk types, as used by the converter (Type.Entity, Type.Array and
an opaque remainder). -/
inductive TTType
  | entity (name : String)
  | array (elem : TTType)
  | other (name : String)
deriving DecidableEq

/-- ThingTalk values created by the converter: only entity values are ever
built (Ast.Value.Entity with value, type and display). -/
inductive TTValue
  | entity (value : String) (entityType : String) (display : Option String)

/-- ThingTalk boolean expressions created by the converter:
AtomBooleanExpression, AndBooleanExpression, OrBooleanExpression and the
ComputeBooleanExpression built by the aggregate filter. -/
inductive BooleanExpr
  | atom (name : String) (op : String) (value : TTValue)
  | and (operands : List BooleanExpr)
  | or (operands : List BooleanExpr)
  | compute (aggregation : String) (operands : List String) (op : String) (value : ℚ)

/-- The Projection record of converter.ts; the source field named
variable is called varName here because that word is reserved in Lean. -/
structure Projection where
  property : String
  varName : String

/-- The Table record of converter.ts. -/
structure Table where
  domain : String
  projections : List Projection
  filters : List BooleanExpr
  verifications : List BooleanExpr

/-- The term types of the sparqljs terms the converter inspects. -/
inductive TermType
  | NamedNode
  | Variable
  | Literal
deriving DecidableEq

/-- A sparqljs term: its term type and its value string. -/
structure Term where
  termType : TermType
  value : String
deriving DecidableEq

/-- A sparqljs triple. -/
structure Triple where
  subject : Term
  predicate : Term
  object : Term
deriving DecidableEq

/-- The where-clause shapes the converter distinguishes: basic graph
patterns, unions, filter patterns, and everything else.  The string
payloads model the JSON rendering used in the error messages. -/
inductive WherePattern
  | bgp (triples : List Triple)
  | union (patterns : List WherePattern)
  | filterPattern (raw : String)
  | other (raw : String)

/-- The select-variable shapes: a plain variable (which has a value),
the wildcard star (whose value is the star string), and expression
selects (which have no value field). -/
inductive SelectVar
  | plain (value : String)
  | wildcard
  | expr

/-- A sparqljs grouping entry. -/
structure Grouping where
  expression : Term

/-- An argument of a having operation: either an aggregate expression or
a plain term. -/
inductive HavingArg
  | aggregate (distinct : Bool) (aggregation : String) (expression : Term)
  | term (t : Term)

/-- A sparqljs having clause: an operation or anything else. -/
inductive HavingExpr
  | operation (operator : String) (args : List HavingArg)
  | other (raw : String)

/-- The parsed SELECT query as the converter consumes it (the sparqljs
parser itself is a collaborator boundary). -/
structure SelectQuery where
  vars : Option (List SelectVar)
  whereClauses : Option (List WherePattern)
  group : Option (List Grouping)
  having : Option (List HavingExpr)

/-- The failure conditions of a convert call. -/
inductive ConvError
  | assertionFailure (msg : String)
  | unsupportedValueType (t : TTType)
  | multipleSubjects
  | unsupportedFilter (raw : String)
  | unsupportedGroupBy
  | noMatchingVariable
  | unsupportedHaving (raw : String)
  | unsupportedVariableType
  | notSupported

/-- ThingTalk query expressions built by the program-generation step. -/
inductive TTExpr
  | invocation (table : String)
  | filter (base : TTExpr) (cond : BooleanExpr)
  | projection (base : TTExpr) (args : List String)
  | booleanQuestion (base : TTExpr) (cond : BooleanExpr)

/-- A ThingTalk program: a single chain statement holding the query
expressions (makeProgram always produces one statement). -/
structure Program where
  statements : List TTExpr

/-- converter.ts baseQuery: an invocation of the base domain query. -/
def baseQuery (domain : String) : TTExpr := .invocation domain

/-- converter.ts makeProgram: wrap one expression into a program. -/
def makeProgram (e : TTExpr) : Program := ⟨[e]⟩

/-- The schema catalogue boundary (WikiSchema): domain code to table name,
property code to field name, property code to field type. -/
structure Schema where
  getTable : String → String
  getProperty : String → String
  getPropertyType : String → TTType

/-- The converter environment: the schema, the knowledge-base label
lookup (none models a null label), the fastest-levenshtein closest
matcher, the genie tokenizer applied to each keyword, the numeric parse
used by having clauses, and the per-call keyword list. -/
structure Ctx where
  schema : Schema
  getLabel : String → Option String
  closestLev : String → List String → Option String
  tokenizeKeyword : String → String
  parseNum : String → Option ℚ
  keywords : List String

/-- The subject-indexed table map, in insertion order (a JS object keyed
by subject). -/
abbrev Tables := List (String × Table)

/-- The fresh table made by initTable. -/
def emptyTable : Table :=
  { domain := "entity", projections := [], filters := [], verifications := [] }

/-- Key membership in the table map. -/
def hasTable : Tables → String → Bool
  | [], _ => false
  | (k, _) :: rest, s => if k = s then true else hasTable rest s

/-- converter.ts initTable: create the subject entry on first reference. -/
def initTable (ts : Tables) (subject : String) : Tables :=
  if hasTable ts subject then ts else ts ++ [(subject, emptyTable)]

/-- Update the entry of an existing key in place. -/
def modifyTable : Tables → String → (Table → Table) → Tables
  | [], _, _ => []
  | (k, t) :: rest, s, f =>
    if k = s then (k, f t) :: rest else (k, t) :: modifyTable rest s f

/-- converter.ts addFilter. -/
def addFilter (ts : Tables) (subject : String) (f : BooleanExpr) : Tables :=
  modifyTable (initTable ts subject) subject
    (fun T => { T with filters := T.filters ++ [f] })

/-- converter.ts addProjection. -/
def addProjection (ts : Tables) (subject : String) (p : Projection) : Tables :=
  modifyTable (initTable ts subject) subject
    (fun T => { T with projections := T.projections ++ [p] })

/-- converter.ts addVerification. -/
def addVerification (ts : Tables) (subject : String) (v : BooleanExpr) : Tables :=
  modifyTable (initTable ts subject) subject
    (fun T => { T with verifications := T.verifications ++ [v] })

/-- converter.ts setDomain: overwrite the domain with the schema table
name of the domain code. -/
def setDomain (ctx : Ctx) (ts : Tables) (subject domain : String) : Tables :=
  modifyTable (initTable ts subject) subject
    (fun T => { T with domain := ctx.schema.getTable domain })

/-! ## src/lib/converter.ts : value and filter conversion -/

/-- The while loop of toThingTalkValue unwrapping Type.Array. -/
def unwrapType : TTType → TTType
  | .array elem => unwrapType elem
  | t => t

/-- converter.ts toThingTalkValue: entity-typed values must be entity
URIs whose label resolves (the JS assert on a falsy label is a hard
failure); any other value type is unsupported. -/
def toThingTalkValue (ctx : Ctx) (value : String) (propertyType : TTType) :
    Except ConvError TTValue :=
  match unwrapType propertyType with
  | .entity entityType =>
    if strStartsWith value wdEntityUri then
      let v := strDrop value (strLen wdEntityUri)
      match ctx.getLabel v with
      | none => .error (.assertionFailure "wikidataLabel")
      | some wikidataLabel =>
        if wikidataLabel = "" then .error (.assertionFailure "wikidataLabel")
        else .ok (.entity v entityType (ctx.closestLev wikidataLabel ctx.keywords))
    else .error (.assertionFailure "value.startsWith ENTITY")
  | vt => .error (.unsupportedValueType vt)

/-- converter.ts atomFilter: the id property keeps its name and gets the
generic entity type; any other property is stripped of the property URI
and resolved through the schema; the operator defaults to contains for
array-typed fields and equality otherwise. -/
def atomFilter (ctx : Ctx) (property value : String) (operator : Option String) :
    Except ConvError BooleanExpr :=
  let pair : String × TTType :=
    if property = "id" then ("id", .entity "org.wikidata:entity")
    else
      let p := strDrop property (strLen wdPropertyUri)
      (ctx.schema.getProperty p, ctx.schema.getPropertyType p)
  match toThingTalkValue ctx value pair.2 with
  | .error e => .error e
  | .ok v =>
    .ok (.atom pair.1
      (operator.getD (match pair.2 with | .array _ => "contains" | _ => "=="))
      v)

/-- converter.ts aggregateFilter: strict threshold comparisons are
normalized to inclusive ones. -/
def aggregateFilter (aggregation : String) (operands : List String)
    (operator : String) (value : ℚ) : BooleanExpr :=
  .compute aggregation operands
    (if operator = ">" ∨ operator = "<" then operator ++ "=" else operator) value

/-! ## src/lib/converter.ts : triple conversion -/

/-- Push a filter onto the per-subject list of the filters-by-subject
accumulator (a JS object keyed by subject, in insertion order). -/
def pushFilterBy : List (String × List BooleanExpr) → String → BooleanExpr →
    List (String × List BooleanExpr)
  | [], s, f => [(s, [f])]
  | (k, fs) :: rest, s, f =>
    if k = s then (k, fs ++ [f]) :: rest else (k, fs) :: pushFilterBy rest s f

/-- The last two effects of the per-triple loop body of convertTriples:
an unbound-variable object adds a projection, and a concrete subject with
a concrete object adds a verification. -/
def tripleTail (ctx : Ctx) (triple : Triple) (ts : Tables) : Except ConvError Tables :=
  let ts :=
    if triple.object.termType = .Variable then
      addProjection ts triple.subject.value
        { varName := triple.object.value,
          property := ctx.schema.getProperty
            (strDrop triple.predicate.value (strLen wdPropertyUri)) }
    else ts
  if triple.subject.termType = .NamedNode ∧ triple.object.termType = .NamedNode then
    match atomFilter ctx triple.predicate.value triple.object.value none with
    | .error e => .error e
    | .ok f => .ok (addVerification ts triple.subject.value f)
  else .ok ts

/-- The loop of convertTriples: per triple, a concrete entity subject
contributes an identity filter; a variable subject with a concrete object
either updates the domain (for the reserved is-instance-of property P31,
skipping the rest of the body) or accumulates a regular filter; then the
projection and verification effects apply. -/
def convertTriplesAux (ctx : Ctx) :
    List Triple → Tables → List (String × List BooleanExpr) →
    Except ConvError (Tables × List (String × List BooleanExpr))
  | [], ts, fbs => .ok (ts, fbs)
  | triple :: rest, ts, fbs =>
    let idStep : Except ConvError Tables :=
      if triple.subject.termType = .NamedNode ∧
          strStartsWith triple.subject.value wdEntityUri = true then
        match atomFilter ctx "id" triple.subject.value none with
        | .error e => .error e
        | .ok f => .ok (addFilter ts triple.subject.value f)
      else .ok ts
    match idStep with
    | .error e => .error e
    | .ok ts =>
      if triple.subject.termType = .Variable ∧ triple.object.termType = .NamedNode then
        if triple.predicate.termType = .NamedNode ∧
            triple.predicate.value = wdPropertyUri ++ "P31" then
          convertTriplesAux ctx rest
            (setDomain ctx ts triple.subject.value
              (strDrop triple.object.value (strLen wdEntityUri))) fbs
        else
          match atomFilter ctx triple.predicate.value triple.object.value none with
          | .error e => .error e
          | .ok f =>
            match tripleTail ctx triple ts with
            | .error e => .error e
            | .ok ts =>
              convertTriplesAux ctx rest ts (pushFilterBy fbs triple.subject.value f)
      else
        match tripleTail ctx triple ts with
        | .error e => .error e
        | .ok ts => convertTriplesAux ctx rest ts fbs

/-- The final combining step of convertTriples: a single filter stays as
is, several are conjoined. -/
def combineConds : List BooleanExpr → BooleanExpr
  | [f] => f
  | fs => .and fs

/-- converter.ts convertTriples: returns the updated table map together
with the per-subject combined regular filters. -/
def convertTriples (ctx : Ctx) (ts : Tables) (triples : List Triple) :
    Except ConvError (Tables × List (String × BooleanExpr)) :=
  match convertTriplesAux ctx triples ts [] with
  | .error e => .error e
  | .ok (ts, fbs) => .ok (ts, fbs.map (fun p => (p.1, combineConds p.2)))

/-! ## src/lib/converter.ts : where clauses -/

/-- Attach each combined per-subject filter to its table. -/
def applyFilters : Tables → List (String × BooleanExpr) → Tables
  | ts, [] => ts
  | ts, (s, f) :: rest => applyFilters (addFilter ts s f) rest

/-- converter.ts parseBasic. -/
def parseBasic (ctx : Ctx) (ts : Tables) (triples : List Triple) :
    Except ConvError Tables :=
  match convertTriples ctx ts triples with
  | .error e => .error e
  | .ok (ts, converted) => .ok (applyFilters ts converted)

/-- The subject-collection loop of parseUnion: remember the first subject
seen, reject any different subject, and gather the branch filters as the
operands of the union. -/
def unionCollect : Option String → List BooleanExpr → List (String × BooleanExpr) →
    Except ConvError (Option String × List BooleanExpr)
  | existed, ops, [] => .ok (existed, ops)
  | existed, ops, (s, f) :: rest =>
    match existed with
    | none => unionCollect (some s) (ops ++ [f]) rest
    | some e =>
      if s = e then unionCollect existed (ops ++ [f]) rest
      else .error .multipleSubjects

/-- The pattern loop of parseUnion: every branch must be a basic graph
pattern. -/
def parseUnionAux (ctx : Ctx) :
    List WherePattern → Tables → Option String → List BooleanExpr →
    Except ConvError (Tables × Option String × List BooleanExpr)
  | [], ts, existed, ops => .ok (ts, existed, ops)
  | .bgp triples :: rest, ts, existed, ops =>
    (match convertTriples ctx ts triples with
    | .error e => .error e
    | .ok (ts, converted) =>
      match unionCollect existed ops converted with
      | .error e => .error e
      | .ok (existed, ops) => parseUnionAux ctx rest ts existed ops)
  | _ :: _, _, _, _ => .error (.assertionFailure "pattern.type === bgp")

/-- converter.ts parseUnion: collect the branch filters and attach their
disjunction to the common subject (an absent subject degrades to the JS
undefined key, as the unchecked cast in the source does). -/
def parseUnion (ctx : Ctx) (ts : Tables) (patterns : List WherePattern) :
    Except ConvError Tables :=
  match parseUnionAux ctx patterns ts none [] with
  | .error e => .error e
  | .ok (ts, existed, ops) =>
    .ok (addFilter ts (existed.getD "undefined") (.or ops))

/-- converter.ts parseWhereClause: basic patterns and unions are handled;
filter patterns and any other clause shape fail with the unsupported
filter error carrying the clause rendering. -/
def parseWhereClause (ctx : Ctx) (ts : Tables) : WherePattern → Except ConvError Tables
  | .bgp triples => parseBasic ctx ts triples
  | .union patterns => parseUnion ctx ts patterns
  | .filterPattern raw => .error (.unsupportedFilter raw)
  | .other raw => .error (.unsupportedFilter raw)

/-! ## src/lib/converter.ts : having clauses -/

/-- Look a subject up in the table map. -/
def lookupTable : Tables → String → Option Table
  | [], _ => none
  | (k, t) :: rest, s => if k = s then some t else lookupTable rest s

/-- The projections.find of parseHavingClause. -/
def findProjection : List Projection → String → Option Projection
  | [], _ => none
  | p :: rest, v => if p.varName = v then some p else findProjection rest v

/-- converter.ts parseHavingClause: the group expression must be a
variable naming an existing table; the having clause must be a count
aggregate of a bound variable compared with a numeric literal, resolved
to the matching projection. -/
def parseHavingClause (ctx : Ctx) (ts : Tables) (having : HavingExpr) (group : Grouping) :
    Except ConvError Tables :=
  if group.expression.termType = .Variable then
    let subject := group.expression.value
    match lookupTable ts subject with
    | none => .error .unsupportedGroupBy
    | some T =>
      match having with
      | .operation operator args =>
        match args with
        | [.aggregate distinct aggregation lhsExpr, .term rhs] =>
          if distinct = false ∧ aggregation = "count" ∧
              lhsExpr.termType = .Variable then
            match findProjection T.projections lhsExpr.value with
            | none => .error .noMatchingVariable
            | some projection =>
              if rhs.termType = .Literal then
                match ctx.parseNum rhs.value with
                | some num =>
                  .ok (addFilter ts subject
                    (aggregateFilter "count" [projection.property] operator num))
                | none => .error (.assertionFailure "isNaN rhs.value")
              else .error (.assertionFailure "rhs.termType === Literal")
          else .error (.assertionFailure "lhs is a non-distinct count of a variable")
        | _ => .error (.assertionFailure "having.args shape")
      | .other raw => .error (.unsupportedHaving raw)
  else .error (.assertionFailure "group.expression.termType === Variable")

/-! ## src/lib/converter.ts : convert -/

/-- The select-variable loop of convert: plain vars are collected;
the wildcard and expression selects are unsupported. -/
def parseVariables : List SelectVar → Except ConvError (List String)
  | [] => .ok []
  | .plain v :: rest =>
    if v = "*" then .error .unsupportedVariableType
    else
      match parseVariables rest with
      | .error e => .error e
      | .ok vs => .ok (v :: vs)
  | _ :: _ => .error .unsupportedVariableType

/-- The where-clause fold of convert. -/
def foldWhere (ctx : Ctx) : Tables → List WherePattern → Except ConvError Tables
  | ts, [] => .ok ts
  | ts, w :: rest =>
    match parseWhereClause ctx ts w with
    | .error e => .error e
    | .ok ts => foldWhere ctx ts rest

/-- The having-clause fold of convert. -/
def foldHaving (ctx : Ctx) (g : Grouping) : Tables → List HavingExpr → Except ConvError Tables
  | ts, [] => .ok ts
  | ts, h :: rest =>
    match parseHavingClause ctx ts h g with
    | .error e => .error e
    | .ok ts => foldHaving ctx g ts rest

/-- The clause-folding phase of convert: fold the where clauses, then,
when both a having and a group clause are present, require exactly one
grouping and fold the having clauses. -/
def foldQuery (ctx : Ctx) (q : SelectQuery) : Except ConvError Tables :=
  let whereStep : Except ConvError Tables :=
    match q.whereClauses with
    | some clauses => foldWhere ctx [] clauses
    | none => .ok []
  match whereStep with
  | .error e => .error e
  | .ok ts =>
    match q.having, q.group with
    | some having, some group =>
      match group with
      | [g] => foldHaving ctx g ts having
      | _ => .error (.assertionFailure "parsed.group.length === 1")
    | _, _ => .ok ts

/-- The selected field list of one table in the generation step: the
identity field when the subject itself is selected, then the target field
of every projection whose variable is selected. -/
def selectedProjections (vars : List String) (subject : String) (T : Table) :
    List String :=
  (if subject ∈ vars then ["id"] else []) ++
    (T.projections.filter (fun p => decide (p.varName ∈ vars))).map
      (fun p => p.property)

/-- The per-table part of the generation step of convert: the base query,
wrapped in the conjunction of its filters when any; a table with
verifications asserts it has no selected projections and becomes a
boolean question; otherwise an unselected table is skipped, the pure
identity selection stays bare, and any other selection is wrapped in a
projection. -/
def buildTable (vars : List String) (subject : String) (T : Table) :
    Except ConvError (Option TTExpr) :=
  let table := baseQuery T.domain
  let table := if T.filters.length > 0 then TTExpr.filter table (.and T.filters) else table
  let projections := selectedProjections vars subject T
  if T.verifications.length > 0 then
    if projections.length = 0 then
      .ok (some (.booleanQuestion table
        (if T.verifications.length > 1 then .and T.verifications
         else combineConds T.verifications)))
    else .error (.assertionFailure "projections.length === 0")
  else
    if projections.length = 0 then .ok none
    else if projections = ["id"] then .ok (some table)
    else .ok (some (.projection table projections))

/-- The generation loop of convert over the accumulated tables. -/
def buildQueries (vars : List String) : Tables → Except ConvError (List TTExpr)
  | [] => .ok []
  | (s, T) :: rest =>
    match buildTable vars s T with
    | .error e => .error e
    | .ok q =>
      match buildQueries vars rest with
      | .error e => .error e
      | .ok qs => .ok (match q with | some e => e :: qs | none => qs)

/-- The reset step of convert: tokenize the utterance keywords into the
per-call keyword list. -/
def mkCtx (env : Ctx) (keywords : List String) : Ctx :=
  { env with keywords := keywords.map env.tokenizeKeyword }

/-- converter.ts convert: reset, fold the clauses, parse the selected
vars, generate one query expression per selected table, and emit a
program when exactly one expression resulted. -/
def convert (env : Ctx) (q : SelectQuery) (keywords : List String) :
    Except ConvError Program :=
  let ctx := mkCtx env keywords
  match foldQuery ctx q with
  | .error e => .error e
  | .ok ts =>
    match parseVariables (q.vars.getD []) with
    | .error e => .error e
    | .ok vars =>
      match buildQueries vars ts with
      | .error e => .error e
      | .ok queries =>
        match queries with
        | [e] => .ok (makeProgram e)
        | _ => .error .notSupported

/-! ## src/dist/lib/utils/wikidata.js : the request primitive -/

/-- The persistent http-request cache rows (url to raw response body). -/
abbrev HttpCache := List (String × String)

/-- Cache lookup by url. -/
def cacheLookup : HttpCache → String → Option String
  | [], _ => none
  | (k, v) :: rest, url => if k = url then some v else cacheLookup rest url

/-- The network and JSON boundary of the request primitive: the HTTP GET
outcome per attempt number (none models a thrown error), and JSON parsing
of a response body (none models a parse exception). -/
structure HttpEnv where
  get : String → Nat → Option String
  parseJson : String → Option String

/-- The value a request resolves with: a parsed JSON body, or the null
returned after the retry also failed. -/
inductive ReqResult
  | parsed (value : String)
  | nullResult
deriving DecidableEq

/-- The only way the request primitive itself rejects: a cached body that
does not parse (that parse happens outside the try block). -/
inductive ReqError
  | cachedParseFailure
deriving DecidableEq

/-- wikidata.js request: serve from cache when caching is enabled;
otherwise issue the HTTP GET, cache a successful raw body, and parse it;
on any failure inside the try block retry once (attempts capped at 2)
with identical url and caching arguments, and after the failed retry log
and resolve with null. -/
def wdRequest (env : HttpEnv) (cache : HttpCache) (url : String) (caching : Bool)
    (attempts : Nat) : Except ReqError (ReqResult × HttpCache) :=
  match caching, cacheLookup cache url with
  | true, some cached =>
    (match env.parseJson cached with
    | some v => .ok (.parsed v, cache)
    | none => .error .cachedParseFailure)
  | _, _ =>
    match env.get url attempts with
    | some result =>
      let cache1 := if caching then cache ++ [(url, result)] else cache
      (match env.parseJson result with
      | some v => .ok (.parsed v, cache1)
      | none =>
        if _h : attempts < 2 then wdRequest env cache1 url caching (attempts + 1)
        else .ok (.nullResult, cache1))
    | none =>
      if _h : attempts < 2 then wdRequest env cache url caching (attempts + 1)
      else .ok (.nullResult, cache)
termination_by 2 - attempts
decreasing_by
  · omega
  · omega

/-- The position in the getSpans output at which the span of length len
starting at token position index appears, for an n-token input: all the
spans of smaller length come first (the row of length l + 1 has n - l
entries), then the spans of the same length with smaller start. -/
def spanPos (n len index : Nat) : Nat :=
  ((List.range (len - 1)).map (fun l => n - l)).sum + index

/-! ## Helper lemmas -/

theorem strDrop_append (s t : String) : strDrop (s ++ t) (strLen s) = t := by
  show String.mk ((s.data ++ t.data).drop s.data.length) = t
  rw [List.drop_left]

theorem strStartsWith_append (s t : String) : strStartsWith (s ++ t) s = true := by
  show decide ((s.data ++ t.data).take s.data.length = s.data) = true
  rw [List.take_left]
  simp

theorem strAppend_right_inj (s t u : String) : s ++ t = s ++ u ↔ t = u := by
  constructor
  · intro h
    have h2 := congrArg (fun x => strDrop x (strLen s)) h
    simpa [strDrop_append] using h2
  · intro h
    rw [h]

theorem strLen_append (s t : String) : strLen (s ++ t) = strLen s + strLen t := by
  show (s.data ++ t.data).length = s.data.length + t.data.length
  simp

theorem wdPropertyUri_append_ne_id (p : String) : wdPropertyUri ++ p ≠ "id" := by
  intro h
  have h2 := congrArg strLen h
  rw [strLen_append] at h2
  have h3 : strLen wdPropertyUri = 36 := by decide
  have h4 : strLen "id" = 2 := by decide
  omega

theorem sum_map_add_one (l : List ℕ) (f : ℕ → ℕ) :
    (l.map (fun x => f x + 1)).sum = (l.map f).sum + l.length := by
  induction l with
  | nil => rfl
  | cons a l ih =>
    simp only [List.map_cons, List.sum_cons, List.length_cons, ih]
    omega

theorem twice_sum_range_sub (n : Nat) :
    2 * (((List.range n).map (fun l => n - l)).sum) = n * (n + 1) := by
  induction n with
  | zero => rfl
  | succ n ih =>
    rw [List.range_succ, List.map_append, List.sum_append]
    have hcongr : (List.range n).map (fun l => n + 1 - l)
        = (List.range n).map (fun l => (n - l) + 1) := by
      apply List.map_congr_left
      intro l hl
      have := List.mem_range.mp hl
      omega
    rw [hcongr, sum_map_add_one, List.length_range]
    have hring : (n + 1) * (n + 1 + 1) = n * (n + 1) + 2 * n + 2 := by ring
    simp only [List.map_cons, List.sum_cons, List.map_nil, List.sum_nil]
    rw [hring]
    have heta : (List.map (HSub.hSub n) (List.range n)).sum
        = (List.map (fun l => n - l) (List.range n)).sum := rfl
    rw [heta]
    generalize n * (n + 1) = m at ih ⊢
    omega

theorem flatten_getElem? {α : Type} (ls : List (List α)) (k i : Nat) (row : List α)
    (hrow : ls[k]? = some row) (hi : i < row.length) :
    ls.flatten[(((ls.take k).map List.length).sum + i)]? = row[i]? := by
  induction ls generalizing k with
  | nil => simp at hrow
  | cons a rest ih =>
    cases k with
    | zero =>
      simp only [List.getElem?_cons_zero, Option.some.injEq] at hrow
      subst hrow
      simp only [List.flatten_cons, List.take_zero, List.map_nil, List.sum_nil, Nat.zero_add]
      rw [List.getElem?_append_left hi]
    | succ k =>
      simp only [List.getElem?_cons_succ] at hrow
      rw [List.flatten_cons, List.take_succ_cons, List.map_cons, List.sum_cons]
      rw [Nat.add_assoc, List.getElem?_append_right (by omega)]
      have harith : a.length + (((rest.take k).map List.length).sum + i) - a.length
          = ((rest.take k).map List.length).sum + i := by omega
      rw [harith]
      exact ih k hrow

/-! ## Claim theorems -/

theorem spans_rows_getElem (tokens : List String) (len index : Nat)
    (h1 : 1 ≤ len) (h2 : len ≤ tokens.length) (h3 : index + len ≤ tokens.length) :
    (((List.range tokens.length).map (fun l =>
      (List.range (tokens.length - l)).map (fun i =>
        joinSpace (sliceTokens tokens i (l + 1))))).flatten)[spanPos tokens.length len index]?
      = some (joinSpace (sliceTokens tokens index len)) := by
  set n := tokens.length with hn
  have hrow : ((List.range n).map (fun l => (List.range (n - l)).map
      (fun i => joinSpace (sliceTokens tokens i (l + 1)))))[len - 1]?
      = some ((List.range (n - (len - 1))).map
          (fun i => joinSpace (sliceTokens tokens i ((len - 1) + 1)))) := by
    rw [List.getElem?_map, List.getElem?_range (by omega)]
    rfl
  have hi : index < ((List.range (n - (len - 1))).map
      (fun i => joinSpace (sliceTokens tokens i ((len - 1) + 1)))).length := by
    rw [List.length_map, List.length_range]
    omega
  have hmain := flatten_getElem? _ (len - 1) index _ hrow hi
  have hpos : (((((List.range n).map (fun l => (List.range (n - l)).map
      (fun i => joinSpace (sliceTokens tokens i (l + 1))))).take (len - 1)).map
        List.length).sum) = ((List.range (len - 1)).map (fun l => n - l)).sum := by
    rw [← List.map_take, List.take_range, List.map_map]
    have hmin : min (len - 1) n = len - 1 := by omega
    rw [hmin]
    apply congrArg
    apply List.map_congr_left
    intro l hl
    simp [Function.comp, List.length_map, List.length_range]
  have helem : ((List.range (n - (len - 1))).map
      (fun i => joinSpace (sliceTokens tokens i ((len - 1) + 1))))[index]?
      = some (joinSpace (sliceTokens tokens index ((len - 1) + 1))) := by
    rw [List.getElem?_map, List.getElem?_range (by omega)]
    rfl
  have hlen : len - 1 + 1 = len := by omega
  simp only [spanPos]
  rw [← hpos, hmain, helem, hlen]

/-- C8: getSpans returns the contiguous token subsequences of the
trailing-punctuation-stripped whitespace-tokenized input, ordered by
increasing span length and then by starting position: on the Eiffel Tower
example it returns exactly the six expected spans in order; an input with
n tokens yields n * (n + 1) / 2 spans; and the span of length len
starting at token index appears exactly at position spanPos n len index
(all shorter spans first, then smaller starting positions). -/
theorem c8_getSpans_enumeration :
    getSpans "the Eiffel Tower" =
      ["the", "Eiffel", "Tower", "the Eiffel", "Eiffel Tower", "the Eiffel Tower"] ∧
    (∀ s : String, (getSpans s).length =
      (tokensOf s).length * ((tokensOf s).length + 1) / 2) ∧
    (∀ s : String, ∀ len index : Nat, 1 ≤ len → len ≤ (tokensOf s).length →
      index + len ≤ (tokensOf s).length →
      (getSpans s)[spanPos (tokensOf s).length len index]? =
        some (joinSpace (sliceTokens (tokensOf s) index len))) := by
  refine ⟨by decide, ?_, ?_⟩
  · intro s
    have h1 : (getSpans s).length
        = ((List.range (tokensOf s).length).map
            (fun l => (tokensOf s).length - l)).sum := by
      show (((List.range (tokensOf s).length).map (fun l =>
          (List.range ((tokensOf s).length - l)).map (fun index =>
            joinSpace (sliceTokens (tokensOf s) index (l + 1))))).flatten).length
        = ((List.range (tokensOf s).length).map
            (fun l => (tokensOf s).length - l)).sum
      rw [List.length_flatten, List.map_map]
      apply congrArg
      apply List.map_congr_left
      intro l hl
      simp [Function.comp, List.length_map, List.length_range]
    rw [h1]
    have h2 := twice_sum_range_sub (tokensOf s).length
    generalize (tokensOf s).length * ((tokensOf s).length + 1) = m at h2 ⊢
    omega
  · intro s len index h1 h2 h3
    exact spans_rows_getElem (tokensOf s) len index h1 h2 h3

/-- Witness for C8: the general parts applied at a concrete two-token
input, with the hypotheses discharged by computation. -/
theorem c8_getSpans_enumeration_witness :
    (getSpans "a b").length =
      (tokensOf "a b").length * ((tokensOf "a b").length + 1) / 2 ∧
    (getSpans "a b")[spanPos (tokensOf "a b").length 2 0]? =
      some (joinSpace (sliceTokens (tokensOf "a b") 0 2)) :=
  ⟨c8_getSpans_enumeration.2.1 "a b",
   c8_getSpans_enumeration.2.2 "a b" 2 0 (by decide) (by decide) (by decide)⟩

/-- C6: a WHERE clause that is a filter pattern (a value or comparison
filter not expressed as a triple) always fails with the unsupported-filter
error and contributes no condition to any table: for every environment and
every accumulated table state, parseWhereClause on a filter pattern
returns exactly the unsupported-filter error, so no table state is ever
returned for it. -/
theorem c6_filter_pattern_always_fails (ctx : Ctx) (ts : Tables) (raw : String) :
    parseWhereClause ctx ts (.filterPattern raw) = .error (.unsupportedFilter raw) := rfl

/-- C3: a basic pattern holding an is-instance-of triple for a variable
subject and one concrete-valued property triple for the same subject
yields, in either triple order, a single table whose name is the schema
catalogue table name of the domain code and whose filters are exactly one
atom for the property (the is-instance-of triple contributes no
filter). -/
theorem c3_type_triple_precedence (ctx : Ctx) (x D P vid lbl t : String)
    (hP : P ≠ "P31")
    (hty : ctx.schema.getPropertyType P = .entity t)
    (hlbl : ctx.getLabel vid = some lbl)
    (hl : lbl ≠ "") :
    parseBasic ctx []
      [⟨⟨.Variable, x⟩, ⟨.NamedNode, wdPropertyUri ++ "P31"⟩,
        ⟨.NamedNode, wdEntityUri ++ D⟩⟩,
       ⟨⟨.Variable, x⟩, ⟨.NamedNode, wdPropertyUri ++ P⟩,
        ⟨.NamedNode, wdEntityUri ++ vid⟩⟩] =
      .ok [(x, { domain := ctx.schema.getTable D, projections := [],
                 filters := [.atom (ctx.schema.getProperty P) "=="
                   (.entity vid t (ctx.closestLev lbl ctx.keywords))],
                 verifications := [] })] ∧
    parseBasic ctx []
      [⟨⟨.Variable, x⟩, ⟨.NamedNode, wdPropertyUri ++ P⟩,
        ⟨.NamedNode, wdEntityUri ++ vid⟩⟩,
       ⟨⟨.Variable, x⟩, ⟨.NamedNode, wdPropertyUri ++ "P31"⟩,
        ⟨.NamedNode, wdEntityUri ++ D⟩⟩] =
      .ok [(x, { domain := ctx.schema.getTable D, projections := [],
                 filters := [.atom (ctx.schema.getProperty P) "=="
                   (.entity vid t (ctx.closestLev lbl ctx.keywords))],
                 verifications := [] })] := by
  have hP31 : ¬(wdPropertyUri ++ P = wdPropertyUri ++ "P31") :=
    fun h => hP ((strAppend_right_inj _ _ _).mp h)
  constructor
  · simp [parseBasic, convertTriples, convertTriplesAux, tripleTail, atomFilter,
      toThingTalkValue, unwrapType, setDomain, addFilter, addProjection, addVerification,
      initTable, hasTable, modifyTable, emptyTable, pushFilterBy, applyFilters,
      combineConds, strDrop_append, strStartsWith_append, hty, hlbl, hl, hP31,
      wdPropertyUri_append_ne_id]
  · simp [parseBasic, convertTriples, convertTriplesAux, tripleTail, atomFilter,
      toThingTalkValue, unwrapType, setDomain, addFilter, addProjection, addVerification,
      initTable, hasTable, modifyTable, emptyTable, pushFilterBy, applyFilters,
      combineConds, strDrop_append, strStartsWith_append, hty, hlbl, hl, hP31,
      wdPropertyUri_append_ne_id]

/-- Witness for C3: a concrete schema, label table and triple pair. -/
theorem c3_type_triple_precedence_witness :
    parseBasic ⟨⟨fun q => "table_" ++ q, fun p => "prop_" ++ p, fun _ => .entity "ent"⟩,
        fun _ => some "europe", fun _ _ => none, id, fun _ => none, []⟩ []
      [⟨⟨.Variable, "x"⟩, ⟨.NamedNode, wdPropertyUri ++ "P31"⟩,
        ⟨.NamedNode, wdEntityUri ++ "Q6256"⟩⟩,
       ⟨⟨.Variable, "x"⟩, ⟨.NamedNode, wdPropertyUri ++ "P30"⟩,
        ⟨.NamedNode, wdEntityUri ++ "Q46"⟩⟩] =
      .ok [("x", { domain := "table_Q6256", projections := [],
                   filters := [.atom "prop_P30" "==" (.entity "Q46" "ent" none)],
                   verifications := [] })] :=
  (c3_type_triple_precedence
    ⟨⟨fun q => "table_" ++ q, fun p => "prop_" ++ p, fun _ => .entity "ent"⟩,
      fun _ => some "europe", fun _ _ => none, id, fun _ => none, []⟩
    "x" "Q6256" "P30" "Q46" "europe" "ent"
    (by decide) rfl rfl (by decide)).1

theorem buildTable_error_msg (vs : List String) (s : String) (T : Table) (e : ConvError)
    (h : buildTable vs s T = .error e) :
    e = .assertionFailure "projections.length === 0" := by
  simp only [buildTable] at h
  repeat' split at h
  all_goals first
    | (exact Except.noConfusion h)
    | (injection h with h2; exact h2.symm)

theorem selectedProjections_ne_nil (vs : List String) (s : String) (T : Table)
    (p : Projection) (hp : p ∈ T.projections) (hpsel : p.varName ∈ vs) :
    selectedProjections vs s T ≠ [] := by
  simp only [selectedProjections]
  intro h
  rcases List.append_eq_nil.mp h with ⟨-, h2⟩
  have hmem : p ∈ T.projections.filter (fun p => decide (p.varName ∈ vs)) :=
    List.mem_filter.mpr ⟨hp, by simpa⟩
  rw [List.map_eq_nil_iff] at h2
  rw [h2] at hmem
  exact absurd hmem (List.not_mem_nil p)

theorem buildQueries_error_of_bad_table (vs : List String) (ts : Tables)
    (s : String) (T : Table) (p : Projection)
    (hmem : (s, T) ∈ ts) (hver : T.verifications ≠ [])
    (hp : p ∈ T.projections) (hpsel : p.varName ∈ vs) :
    buildQueries vs ts = .error (.assertionFailure "projections.length === 0") := by
  induction ts with
  | nil => exact absurd hmem (List.not_mem_nil _)
  | cons head rest ih =>
    obtain ⟨hs, hT⟩ := head
    rcases List.mem_cons.mp hmem with heq | hmem2
    · have h1 : s = hs := congrArg Prod.fst heq
      have h2 : T = hT := congrArg Prod.snd heq
      subst h1
      subst h2
      have hbt : buildTable vs s T = .error (.assertionFailure "projections.length === 0") := by
        have hv : T.verifications.length > 0 := List.length_pos.mpr hver
        have hproj : selectedProjections vs s T ≠ [] :=
          selectedProjections_ne_nil vs s T p hp hpsel
        simp only [buildTable]
        rw [if_pos hv, if_neg (fun hh => hproj (List.length_eq_zero.mp hh))]
      simp only [buildQueries]
      rw [hbt]
    · simp only [buildQueries]
      cases hbt : buildTable vs hs hT with
      | error e =>
        have he := buildTable_error_msg vs hs hT e hbt
        subst he
        rfl
      | ok qv =>
        rw [ih hmem2]

/-- C1: when the program-generation step produces more than one table
expression with selected output, convert fails with the
cross-table-unsupported error (the final not-supported failure) and
returns no program: for any fold result, parsed variable list and
generated query list with more than one entry, convert returns exactly
that error. -/
theorem c1_cross_table_unsupported (env : Ctx) (q : SelectQuery) (kw : List String)
    (ts : Tables) (vs : List String) (qs : List TTExpr)
    (hts : foldQuery (mkCtx env kw) q = .ok ts)
    (hvs : parseVariables (q.vars.getD []) = .ok vs)
    (hqs : buildQueries vs ts = .ok qs)
    (hlen : 1 < qs.length) :
    convert env q kw = .error .notSupported := by
  simp only [convert, hts, hvs, hqs]
  rcases qs with _ | ⟨a, _ | ⟨b, l⟩⟩
  · rfl
  · simp at hlen
  · rfl

/-- Witness for C1: a query selecting two subjects, each carrying its own
table, fails with the final not-supported error. -/
theorem c1_cross_table_unsupported_witness :
    convert ⟨⟨fun q => "table_" ++ q, fun p => "prop_" ++ p, fun _ => .entity "ent"⟩,
        fun _ => some "europe", fun _ _ => none, id, fun _ => none, []⟩
      ⟨some [.plain "x", .plain "y"],
        some [.bgp [⟨⟨.Variable, "x"⟩, ⟨.NamedNode, wdPropertyUri ++ "P31"⟩,
          ⟨.NamedNode, wdEntityUri ++ "Q1"⟩⟩,
          ⟨⟨.Variable, "y"⟩, ⟨.NamedNode, wdPropertyUri ++ "P31"⟩,
          ⟨.NamedNode, wdEntityUri ++ "Q2"⟩⟩]], none, none⟩ [] =
      .error .notSupported :=
  c1_cross_table_unsupported
    ⟨⟨fun q => "table_" ++ q, fun p => "prop_" ++ p, fun _ => .entity "ent"⟩,
      fun _ => some "europe", fun _ _ => none, id, fun _ => none, []⟩
    ⟨some [.plain "x", .plain "y"],
      some [.bgp [⟨⟨.Variable, "x"⟩, ⟨.NamedNode, wdPropertyUri ++ "P31"⟩,
        ⟨.NamedNode, wdEntityUri ++ "Q1"⟩⟩,
        ⟨⟨.Variable, "y"⟩, ⟨.NamedNode, wdPropertyUri ++ "P31"⟩,
        ⟨.NamedNode, wdEntityUri ++ "Q2"⟩⟩]], none, none⟩ []
    [("x", { domain := "table_Q1", projections := [], filters := [],
             verifications := [] }),
     ("y", { domain := "table_Q2", projections := [], filters := [],
             verifications := [] })]
    ["x", "y"]
    [.invocation "table_Q1", .invocation "table_Q2"]
    rfl rfl rfl (by decide)

/-- C2: a table that accumulated a verification condition and also
carries a projection whose variable is selected makes convert fail fast
with the projection assertion instead of producing a program that
combines a boolean-question wrapper with a projection. -/
theorem c2_verification_excludes_projection (env : Ctx) (q : SelectQuery)
    (kw : List String) (ts : Tables) (vs : List String)
    (s : String) (T : Table) (p : Projection)
    (hts : foldQuery (mkCtx env kw) q = .ok ts)
    (hvs : parseVariables (q.vars.getD []) = .ok vs)
    (hmem : (s, T) ∈ ts)
    (hver : T.verifications ≠ [])
    (hp : p ∈ T.projections)
    (hpsel : p.varName ∈ vs) :
    convert env q kw = .error (.assertionFailure "projections.length === 0") := by
  simp only [convert, hts, hvs,
    buildQueries_error_of_bad_table vs ts s T p hmem hver hp hpsel]

/-- Witness for C2: a yes-no triple and a projection triple on the same
concrete subject, with the projected variable selected. -/
theorem c2_verification_excludes_projection_witness :
    convert ⟨⟨fun q => "table_" ++ q, fun p => "prop_" ++ p, fun _ => .entity "ent"⟩,
        fun _ => some "europe", fun _ _ => none, id, fun _ => none, []⟩
      ⟨some [.plain "v"],
        some [.bgp [⟨⟨.NamedNode, "s"⟩, ⟨.NamedNode, wdPropertyUri ++ "P1"⟩,
          ⟨.NamedNode, wdEntityUri ++ "Q2"⟩⟩,
          ⟨⟨.NamedNode, "s"⟩, ⟨.NamedNode, wdPropertyUri ++ "P2"⟩,
          ⟨.Variable, "v"⟩⟩]], none, none⟩ [] =
      .error (.assertionFailure "projections.length === 0") :=
  c2_verification_excludes_projection
    ⟨⟨fun q => "table_" ++ q, fun p => "prop_" ++ p, fun _ => .entity "ent"⟩,
      fun _ => some "europe", fun _ _ => none, id, fun _ => none, []⟩
    ⟨some [.plain "v"],
      some [.bgp [⟨⟨.NamedNode, "s"⟩, ⟨.NamedNode, wdPropertyUri ++ "P1"⟩,
        ⟨.NamedNode, wdEntityUri ++ "Q2"⟩⟩,
        ⟨⟨.NamedNode, "s"⟩, ⟨.NamedNode, wdPropertyUri ++ "P2"⟩,
        ⟨.Variable, "v"⟩⟩]], none, none⟩ []
    [("s", { domain := "entity",
             projections := [⟨"prop_P2", "v"⟩],
             filters := [],
             verifications := [.atom "prop_P1" "==" (.entity "Q2" "ent" none)] })]
    ["v"] "s"
    { domain := "entity",
      projections := [⟨"prop_P2", "v"⟩],
      filters := [],
      verifications := [.atom "prop_P1" "==" (.entity "Q2" "ent" none)] }
    ⟨"prop_P2", "v"⟩
    rfl rfl (by simp) (by simp) (by simp) (by simp)

/-- C10: failure in the generation step is not limited to the
more-than-one-table case: when no accumulated table has selected output
(the generation loop produces no query expression at all), convert also
fails with the final not-supported error instead of returning an empty
program. -/
theorem c10_empty_selection_not_supported (env : Ctx) (q : SelectQuery)
    (kw : List String) (ts : Tables) (vs : List String)
    (hts : foldQuery (mkCtx env kw) q = .ok ts)
    (hvs : parseVariables (q.vars.getD []) = .ok vs)
    (hqs : buildQueries vs ts = .ok []) :
    convert env q kw = .error .notSupported := by
  simp only [convert, hts, hvs, hqs]

/-- Witness for C10: a query whose single table has no selected subject,
no selected projection and no verification. -/
theorem c10_empty_selection_not_supported_witness :
    convert ⟨⟨fun q => "table_" ++ q, fun p => "prop_" ++ p, fun _ => .entity "ent"⟩,
        fun _ => some "europe", fun _ _ => none, id, fun _ => none, []⟩
      ⟨some [],
        some [.bgp [⟨⟨.Variable, "x"⟩, ⟨.NamedNode, wdPropertyUri ++ "P31"⟩,
          ⟨.NamedNode, wdEntityUri ++ "Q1"⟩⟩]], none, none⟩ [] =
      .error .notSupported :=
  c10_empty_selection_not_supported
    ⟨⟨fun q => "table_" ++ q, fun p => "prop_" ++ p, fun _ => .entity "ent"⟩,
      fun _ => some "europe", fun _ _ => none, id, fun _ => none, []⟩
    ⟨some [],
      some [.bgp [⟨⟨.Variable, "x"⟩, ⟨.NamedNode, wdPropertyUri ++ "P31"⟩,
        ⟨.NamedNode, wdEntityUri ++ "Q1"⟩⟩]], none, none⟩ []
    [("x", { domain := "table_Q1", projections := [], filters := [],
             verifications := [] })]
    [] rfl rfl rfl

/-- C4: a union of two basic patterns whose branches produce filters for
two different subjects fails with the multiple-subjects error, while a
union whose branches produce filters for one common subject succeeds and
attaches to that subject an Or condition with exactly the two branch
conditions as operands. -/
theorem c4_union_single_subject (ctx : Ctx) (ts0 ts1 ts2 : Tables)
    (tr1 tr2 : List Triple) (s1 s2 : String) (f1 f2 : BooleanExpr)
    (h1 : convertTriples ctx ts0 tr1 = .ok (ts1, [(s1, f1)]))
    (h2 : convertTriples ctx ts1 tr2 = .ok (ts2, [(s2, f2)])) :
    (s1 ≠ s2 → parseUnion ctx ts0 [.bgp tr1, .bgp tr2] = .error .multipleSubjects) ∧
    (s1 = s2 → parseUnion ctx ts0 [.bgp tr1, .bgp tr2] =
      .ok (addFilter ts2 s1 (.or [f1, f2]))) := by
  constructor
  · intro hne
    have hne2 : s2 ≠ s1 := Ne.symm hne
    simp [parseUnion, parseUnionAux, h1, h2, unionCollect, hne2]
  · intro heq
    subst heq
    simp [parseUnion, parseUnionAux, h1, h2, unionCollect]

/-- Witness for C4: concrete unions over one and over two subjects. -/
theorem c4_union_single_subject_witness :
    parseUnion ⟨⟨fun q => "table_" ++ q, fun p => "prop_" ++ p, fun _ => .entity "ent"⟩,
        fun _ => some "europe", fun _ _ => none, id, fun _ => none, []⟩ []
      [.bgp [⟨⟨.Variable, "x"⟩, ⟨.NamedNode, wdPropertyUri ++ "P30"⟩,
        ⟨.NamedNode, wdEntityUri ++ "Q46"⟩⟩],
       .bgp [⟨⟨.Variable, "y"⟩, ⟨.NamedNode, wdPropertyUri ++ "P30"⟩,
        ⟨.NamedNode, wdEntityUri ++ "Q48"⟩⟩]] = .error .multipleSubjects ∧
    parseUnion ⟨⟨fun q => "table_" ++ q, fun p => "prop_" ++ p, fun _ => .entity "ent"⟩,
        fun _ => some "europe", fun _ _ => none, id, fun _ => none, []⟩ []
      [.bgp [⟨⟨.Variable, "x"⟩, ⟨.NamedNode, wdPropertyUri ++ "P30"⟩,
        ⟨.NamedNode, wdEntityUri ++ "Q46"⟩⟩],
       .bgp [⟨⟨.Variable, "x"⟩, ⟨.NamedNode, wdPropertyUri ++ "P30"⟩,
        ⟨.NamedNode, wdEntityUri ++ "Q48"⟩⟩]] =
      .ok (addFilter [] "x" (.or [.atom "prop_P30" "==" (.entity "Q46" "ent" none),
        .atom "prop_P30" "==" (.entity "Q48" "ent" none)])) :=
  ⟨(c4_union_single_subject
      ⟨⟨fun q => "table_" ++ q, fun p => "prop_" ++ p, fun _ => .entity "ent"⟩,
        fun _ => some "europe", fun _ _ => none, id, fun _ => none, []⟩
      [] [] []
      [⟨⟨.Variable, "x"⟩, ⟨.NamedNode, wdPropertyUri ++ "P30"⟩,
        ⟨.NamedNode, wdEntityUri ++ "Q46"⟩⟩]
      [⟨⟨.Variable, "y"⟩, ⟨.NamedNode, wdPropertyUri ++ "P30"⟩,
        ⟨.NamedNode, wdEntityUri ++ "Q48"⟩⟩]
      "x" "y"
      (.atom "prop_P30" "==" (.entity "Q46" "ent" none))
      (.atom "prop_P30" "==" (.entity "Q48" "ent" none))
      rfl rfl).1 (by decide),
   (c4_union_single_subject
      ⟨⟨fun q => "table_" ++ q, fun p => "prop_" ++ p, fun _ => .entity "ent"⟩,
        fun _ => some "europe", fun _ _ => none, id, fun _ => none, []⟩
      [] [] []
      [⟨⟨.Variable, "x"⟩, ⟨.NamedNode, wdPropertyUri ++ "P30"⟩,
        ⟨.NamedNode, wdEntityUri ++ "Q46"⟩⟩]
      [⟨⟨.Variable, "x"⟩, ⟨.NamedNode, wdPropertyUri ++ "P30"⟩,
        ⟨.NamedNode, wdEntityUri ++ "Q48"⟩⟩]
      "x" "x"
      (.atom "prop_P30" "==" (.entity "Q46" "ent" none))
      (.atom "prop_P30" "==" (.entity "Q48" "ent" none))
      rfl rfl).2 rfl⟩

/-- C5: a concrete entity value of entity type whose label the knowledge
base cannot resolve is a hard failure: toThingTalkValue fails with the
label assertion, and a convert call whose query holds a triple carrying
that value aborts with that same failure instead of emitting an
unlabeled entity value. -/
theorem c5_unresolved_entity_label (ctx : Ctx) (value : String) (ty : TTType) (t : String)
    (hty : unwrapType ty = .entity t)
    (hsw : strStartsWith value wdEntityUri = true)
    (hlbl : ctx.getLabel (strDrop value (strLen wdEntityUri)) = none) :
    toThingTalkValue ctx value ty = .error (.assertionFailure "wikidataLabel") ∧
    (∀ (x pv : String) (kw : List String) (vs : Option (List SelectVar))
      (grp : Option (List Grouping)) (hav : Option (List HavingExpr)),
      pv ≠ wdPropertyUri ++ "P31" →
      unwrapType (ctx.schema.getPropertyType (strDrop pv (strLen wdPropertyUri))) =
        .entity t →
      convert ctx
        ⟨vs, some [.bgp [⟨⟨.Variable, x⟩, ⟨.NamedNode, pv⟩, ⟨.NamedNode, value⟩⟩]],
          grp, hav⟩ kw =
        .error (.assertionFailure "wikidataLabel")) := by
  constructor
  · simp [toThingTalkValue, hty, hsw, hlbl]
  · intro x pv kw vs grp hav hpv hty2
    have herr : atomFilter (mkCtx ctx kw) pv value none =
        .error (.assertionFailure "wikidataLabel") := by
      by_cases hid : pv = "id"
      · simp [atomFilter, hid, toThingTalkValue, unwrapType, hsw, mkCtx, hlbl]
      · simp [atomFilter, hid, toThingTalkValue, hty2, hsw, mkCtx, hlbl]
    simp [convert, foldQuery, foldWhere, parseWhereClause, parseBasic, convertTriples,
      convertTriplesAux, herr, hpv]

/-- Witness for C5: a knowledge base that resolves no label, applied at a
concrete entity value and a concrete one-triple query. -/
theorem c5_unresolved_entity_label_witness :
    toThingTalkValue ⟨⟨fun q => "table_" ++ q, fun p => "prop_" ++ p, fun _ => .entity "e"⟩,
        fun _ => none, fun _ _ => none, id, fun _ => none, []⟩
      (wdEntityUri ++ "Q46") (.entity "e") =
      .error (.assertionFailure "wikidataLabel") ∧
    convert ⟨⟨fun q => "table_" ++ q, fun p => "prop_" ++ p, fun _ => .entity "e"⟩,
        fun _ => none, fun _ _ => none, id, fun _ => none, []⟩
      ⟨some [.plain "x"],
        some [.bgp [⟨⟨.Variable, "x"⟩, ⟨.NamedNode, wdPropertyUri ++ "P30"⟩,
          ⟨.NamedNode, wdEntityUri ++ "Q46"⟩⟩]], none, none⟩ [] =
      .error (.assertionFailure "wikidataLabel") :=
  ⟨(c5_unresolved_entity_label
      ⟨⟨fun q => "table_" ++ q, fun p => "prop_" ++ p, fun _ => .entity "e"⟩,
        fun _ => none, fun _ _ => none, id, fun _ => none, []⟩
      (wdEntityUri ++ "Q46") (.entity "e") "e" rfl (by decide) rfl).1,
   (c5_unresolved_entity_label
      ⟨⟨fun q => "table_" ++ q, fun p => "prop_" ++ p, fun _ => .entity "e"⟩,
        fun _ => none, fun _ _ => none, id, fun _ => none, []⟩
      (wdEntityUri ++ "Q46") (.entity "e") "e" rfl (by decide) rfl).2
      "x" (wdPropertyUri ++ "P30") [] (some [.plain "x"]) none none
      (by decide) rfl⟩

/-- C9: similarity of a string with itself in f1 mode is 1 whenever its
cleaned token list (lowercased, stopwords removed, stemmed) is non-empty;
similarity is 0 for any two strings whose cleaned token sets are
disjoint; and similarity is 0 whenever either cleaned token list is
empty, in every mode. -/
theorem c9_similarity_bounds (env : TextEnv) (x y : String) (alg : SimAlgorithm) :
    (cleanedTokens env x ≠ [] → similarity env x x .f1 = 1) ∧
    ((∀ v ∈ cleanedTokens env x, v ∉ cleanedTokens env y) →
      similarity env x y alg = 0) ∧
    ((cleanedTokens env x = [] ∨ cleanedTokens env y = []) →
      similarity env x y alg = 0) := by
  refine ⟨?_, ?_, ?_⟩
  · intro hne
    have hfilter : (cleanedTokens env x).filter
        (fun v => decide (v ∈ cleanedTokens env x)) = cleanedTokens env x :=
      List.filter_eq_self.mpr (fun a ha => decide_eq_true ha)
    have hlen : ((cleanedTokens env x).length : ℚ) ≠ 0 :=
      Nat.cast_ne_zero.mpr (fun h => hne (List.length_eq_zero.mp h))
    simp only [similarity]
    rw [if_neg (by simp [hne])]
    simp only [hfilter]
    rw [div_self hlen]
    norm_num
  · intro hdisj
    by_cases hempty : cleanedTokens env x = [] ∨ cleanedTokens env y = []
    · simp only [similarity]
      rw [if_pos hempty]
    · have hfilter : (cleanedTokens env x).filter
          (fun v => decide (v ∈ cleanedTokens env y)) = [] :=
        List.filter_eq_nil_iff.mpr (fun a ha => by simpa using hdisj a ha)
      simp only [similarity]
      rw [if_neg hempty]
      cases alg with
      | jaccard => simp [hfilter]
      | f1 => simp [hfilter]
  · intro hor
    simp only [similarity]
    rw [if_pos hor]

/-- Witness for C9: the identity-normalizing environment with no
stopwords, applied at concrete one-token strings. -/
theorem c9_similarity_bounds_witness :
    cleanedTokens ⟨id, id, id, fun _ => false⟩ "a" ≠ [] ∧
    similarity ⟨id, id, id, fun _ => false⟩ "a" "a" .f1 = 1 ∧
    similarity ⟨id, id, id, fun _ => false⟩ "a" "b" .f1 = 0 :=
  ⟨by decide,
   (c9_similarity_bounds ⟨id, id, id, fun _ => false⟩ "a" "a" .f1).1 (by decide),
   (c9_similarity_bounds ⟨id, id, id, fun _ => false⟩ "a" "b" .f1).2.1 (by decide)⟩

/-- C7: every call routed through the request primitive that misses the
cache and fails is retried exactly once with identical url and caching
parameters: if both attempts fail the call resolves with the null result
(no error is raised to the caller), and if the single retry succeeds its
parsed body is returned (showing the retry used the same url). -/
theorem c7_request_retries_once_then_null (env : HttpEnv) (cache : HttpCache)
    (url : String) (caching : Bool)
    (hmiss : caching = true → cacheLookup cache url = none) :
    ((env.get url 1 = none ∧ env.get url 2 = none) →
      wdRequest env cache url caching 1 = .ok (.nullResult, cache)) ∧
    (∀ body v, env.get url 1 = none → env.get url 2 = some body →
      env.parseJson body = some v →
      wdRequest env cache url caching 1 =
        .ok (.parsed v, if caching then cache ++ [(url, body)] else cache)) := by
  constructor
  · rintro ⟨h1, h2⟩
    rw [wdRequest]
    · rw [h1, dif_pos (by omega), wdRequest]
      · rw [h2, dif_neg (by omega)]
      · intro cached hc hl
        rw [hmiss hc] at hl
        exact Option.noConfusion hl
    · intro cached hc hl
      rw [hmiss hc] at hl
      exact Option.noConfusion hl
  · intro body v h1 h2 hp
    rw [wdRequest]
    · rw [h1, dif_pos (by omega), wdRequest]
      · rw [h2]
        simp [hp]
      · intro cached hc hl
        rw [hmiss hc] at hl
        exact Option.noConfusion hl
    · intro cached hc hl
      rw [hmiss hc] at hl
      exact Option.noConfusion hl

/-- Witness for C7: with an empty cache and a network that fails on both
attempts the request resolves with null, and with a network that fails
once and then delivers a parseable body the retried request resolves with
that body, applied at concrete inputs. -/
theorem c7_request_retries_once_then_null_witness :
    wdRequest ⟨fun _ _ => none, fun s => some s⟩ [] "u" true 1 = .ok (.nullResult, []) ∧
    wdRequest ⟨fun _ n => if n = 2 then some "body" else none, fun s => some s⟩
      [] "u" true 1 = .ok (.parsed "body", [("u", "body")]) := by
  constructor
  · exact (c7_request_retries_once_then_null ⟨fun _ _ => none, fun s => some s⟩ []
      "u" true (fun _ => rfl)).1 ⟨rfl, rfl⟩
  · exact (c7_request_retries_once_then_null
      ⟨fun _ n => if n = 2 then some "body" else none, fun s => some s⟩ []
      "u" true (fun _ => rfl)).2 "body" "body" rfl rfl rfl

end Qald
